import Mathlib

/-!
Verification of the SurfMate navigation engine (src/content.js) against its
natural-language specification.  Each section shallowly embeds one component
of the source: the fuzzy matcher, the selector sanitization cascade, the
hint renderers and their key→target maps, the annotation overlap resolver,
and the navigation state machine around activation / deactivation.
-/

namespace SurfMate

/-! ### Fuzzy matcher (src/content.js, `fuzzyMatch`, lines 508-548)

JS strings are embedded as Lean `String`; `toLowerCase` is `Char.toLower`
mapped over the characters (the texts involved are ASCII), `startsWith` is
`List.isPrefixOf`, `includes` is `List.isInfixOf`. -/

/-- Result object `{ score, match }` of `fuzzyMatch`.  The optional
`highlight` field carries no information used by any caller's logic. -/
structure FuzzyResult where
  score : Int
  matched : Bool
  deriving DecidableEq, Repr

/-- `text.toLowerCase()` as a character list. -/
def lowerList (s : String) : List Char :=
  s.data.map Char.toLower

/-- The character-by-character subsequence scan of `fuzzyMatch` (the
`while` loop): returns the accumulated score and whether the whole query
was consumed (`queryIndex === query.length`). -/
def fuzzyScan : List Char → List Char → Int → Nat → Int × Bool
  | _, [], score, _ => (score, true)
  | [], _ :: _, score, _ => (score, false)
  | t :: ts, q :: qs, score, consec =>
    if t = q then
      fuzzyScan ts qs (score + 10 + 2 * (consec : Int)) (consec + 1)
    else
      fuzzyScan ts (q :: qs) (score - 1) 0

/-- JS `text.includes(query)`: contiguous-substring test, i.e. list infix. -/
def jsIncludes (q t : List Char) : Bool :=
  decide (q <:+: t)

/-- `fuzzyMatch(text, query)` from src/content.js lines 508-548. -/
def fuzzyMatch (text query : String) : FuzzyResult :=
  let t := lowerList text
  let q := lowerList query
  if q.isEmpty then ⟨0, false⟩
  else if t = q then ⟨100, true⟩
  else if q.isPrefixOf t then ⟨80, true⟩
  else if jsIncludes q t then ⟨60, true⟩
  else
    let r := fuzzyScan t q 0 0
    if r.2 then ⟨max 20 r.1, true⟩ else ⟨0, false⟩

/-- The follow-mode filter predicate `r.match && r.score > 0` from
`findMatchesForFollow` (src/content.js line 579). -/
def followFilter (r : FuzzyResult) : Bool :=
  r.matched && decide (0 < r.score)

/-- Upper bound on the subsequence-scan score: each of the `m` remaining
query characters contributes at most `10 + 2·(consecutive so far)`. -/
theorem fuzzyScan_fst_le (t : List Char) : ∀ (q : List Char) (s : Int) (c : Nat),
    (fuzzyScan t q s c).1 ≤
      s + 10 * (q.length : Int) + 2 * (c : Int) * (q.length : Int) +
        (q.length : Int) * ((q.length : Int) - 1) := by
  induction t with
  | nil =>
    intro q s c
    cases q with
    | nil => simp [fuzzyScan]
    | cons b qs =>
      simp only [fuzzyScan]
      have hm : (1 : Int) ≤ ((b :: qs).length : Int) := by
        simp only [List.length_cons]; push_cast; omega
      have hc : (0 : Int) ≤ (c : Int) := Int.natCast_nonneg c
      have h1 : (0 : Int) ≤ (c : Int) * ((b :: qs).length : Int) :=
        mul_nonneg hc (by linarith)
      have h2 : (0 : Int) ≤ ((b :: qs).length : Int) * (((b :: qs).length : Int) - 1) :=
        mul_nonneg (by linarith) (by linarith)
      linarith
  | cons a ts ih =>
    intro q s c
    cases q with
    | nil => simp [fuzzyScan]
    | cons b qs =>
      simp only [fuzzyScan]
      by_cases hab : a = b
      · simp only [if_pos hab]
        have h := ih qs (s + 10 + 2 * (c : Int)) (c + 1)
        refine h.trans (le_of_eq ?_)
        simp only [List.length_cons]
        push_cast
        ring
      · simp only [if_neg hab]
        have h := ih (b :: qs) (s - 1) 0
        refine h.trans ?_
        have hc : (0 : Int) ≤ (c : Int) := Int.natCast_nonneg c
        have hq : (0 : Int) ≤ ((b :: qs).length : Int) := Int.natCast_nonneg _
        have h1 : (0 : Int) ≤ (c : Int) * ((b :: qs).length : Int) := mul_nonneg hc hq
        push_cast
        push_cast at h
        linarith

/-- The scan branch of `fuzzyMatch` for a query of at most 4 characters
scores at most 52 (`10·4 + 4·3`), hence strictly below the substring
score 60. -/
theorem fuzzyScan_short_lt (t q : List Char) (hlen : q.length ≤ 4) :
    (fuzzyScan t q 0 0).1 ≤ 52 := by
  have h := fuzzyScan_fst_le t q 0 0
  have hq : ((q.length : Int)) ≤ 4 := by exact_mod_cast hlen
  have hq0 : (0 : Int) ≤ (q.length : Int) := Int.natCast_nonneg _
  have h52 : 10 * ((q.length : Int)) + ((q.length : Int)) * (((q.length : Int)) - 1) ≤ 52 := by
    nlinarith
  push_cast at h
  linarith

/-- `fuzzyMatch` on an exact (case-insensitive) match of a nonempty query. -/
theorem fuzzyMatch_exact (t q : String) (hq : lowerList q ≠ [])
    (h : lowerList t = lowerList q) : fuzzyMatch t q = ⟨100, true⟩ := by
  have hqe : (lowerList q).isEmpty = false := by
    cases hq2 : lowerList q with
    | nil => exact absurd hq2 hq
    | cons a l => rfl
  simp [fuzzyMatch, hqe, h]

/-- `fuzzyMatch` when the query occurs as a substring but not as a prefix. -/
theorem fuzzyMatch_substr (t q : String)
    (hi : jsIncludes (lowerList q) (lowerList t) = true)
    (hp : (lowerList q).isPrefixOf (lowerList t) = false) :
    fuzzyMatch t q = ⟨60, true⟩ := by
  have hne : lowerList t ≠ lowerList q := by
    intro h
    rw [h] at hp
    have hT : (lowerList q).isPrefixOf (lowerList q) = true := by
      rw [List.isPrefixOf_iff_prefix]
    rw [hT] at hp
    cases hp
  have hq : (lowerList q).isEmpty = false := by
    cases hq2 : lowerList q with
    | nil =>
      rw [hq2] at hp
      have hT : (List.nil (α := Char)).isPrefixOf (lowerList t) = true := by
        rw [List.isPrefixOf_iff_prefix]
        exact List.nil_prefix
      rw [hT] at hp
      cases hp
    | cons a l => rfl
  simp [fuzzyMatch, hne, hp, hi, hq]

/-- `fuzzyMatch` when the query is not a substring at all: the result comes
from the subsequence scan (or is no match), so for queries of length ≤ 4 the
score stays below 60. -/
theorem fuzzyMatch_no_substr_lt (t q : String)
    (hlen : (lowerList q).length ≤ 4)
    (hi : jsIncludes (lowerList q) (lowerList t) = false) :
    (fuzzyMatch t q).score < 60 := by
  have hinf : ¬(lowerList q <:+: lowerList t) := by
    intro h
    simp [jsIncludes, h] at hi
  have hp : (lowerList q).isPrefixOf (lowerList t) = false := by
    rw [Bool.eq_false_iff]
    intro h
    rw [List.isPrefixOf_iff_prefix] at h
    exact hinf h.isInfix
  have hne : ¬(lowerList t = lowerList q) := by
    intro h
    exact hinf (h ▸ List.infix_refl _)
  by_cases hq : (lowerList q).isEmpty = true
  · simp [fuzzyMatch, hq]
  · have hb := fuzzyScan_short_lt (lowerList t) (lowerList q) hlen
    simp only [fuzzyMatch, hq, hne, hp, hi, Bool.false_eq_true, if_false]
    cases hsc : (fuzzyScan (lowerList t) (lowerList q) 0 0).2 <;> simp [hsc]
    omega

/-- Every `fuzzyMatch` result is either the no-match result `⟨0, false⟩` or
a match whose score is at least 20. -/
theorem fuzzyMatch_shape (text query : String) :
    fuzzyMatch text query = ⟨0, false⟩ ∨
      ((fuzzyMatch text query).matched = true ∧ 20 ≤ (fuzzyMatch text query).score) := by
  unfold fuzzyMatch
  dsimp only
  split_ifs with h1 h2 h3 h4 h5
  · exact Or.inl rfl
  · exact Or.inr ⟨rfl, by norm_num⟩
  · exact Or.inr ⟨rfl, by norm_num⟩
  · exact Or.inr ⟨rfl, by norm_num⟩
  · exact Or.inr ⟨rfl, le_max_left _ _⟩
  · exact Or.inl rfl

/-- C10: `fuzzyMatch` is a total function whose flag and score agree: a
reported match scores at least 20, a non-match (including every empty
query) scores exactly 0, so the follow-mode filter `r.match && r.score > 0`
(line 579) is equivalent to the match flag alone. -/
theorem fuzzyMatch_match_iff_positive_score (text query : String) :
    ((fuzzyMatch text query).matched = true → 20 ≤ (fuzzyMatch text query).score)
  ∧ ((fuzzyMatch text query).matched = false → (fuzzyMatch text query).score = 0)
  ∧ (query = "" → fuzzyMatch text query = ⟨0, false⟩)
  ∧ followFilter (fuzzyMatch text query) = (fuzzyMatch text query).matched := by
  refine ⟨?_, ?_, ?_, ?_⟩
  · intro hm
    rcases fuzzyMatch_shape text query with h | h
    · rw [h] at hm; cases hm
    · exact h.2
  · intro hm
    rcases fuzzyMatch_shape text query with h | h
    · rw [h]
    · rw [h.1] at hm; cases hm
  · intro hq
    subst hq
    rfl
  · rcases fuzzyMatch_shape text query with h | h
    · rw [h]; rfl
    · have hpos : (0 : Int) < (fuzzyMatch text query).score := by
        have := h.2; omega
      simp [followFilter, h.1, hpos]

/-- Witness for C10 at concrete inputs: the empty query is a no-match with
score 0, and the follow filter agrees with the match flag. -/
theorem fuzzyMatch_match_iff_positive_score_witness :
    fuzzyMatch "About" "" = ⟨0, false⟩
  ∧ followFilter (fuzzyMatch "Submit" "sub") = (fuzzyMatch "Submit" "sub").matched
  ∧ 20 ≤ (fuzzyMatch "Submit" "sub").score :=
  ⟨(fuzzyMatch_match_iff_positive_score "About" "").2.2.1 rfl,
   (fuzzyMatch_match_iff_positive_score "Submit" "sub").2.2.2,
   (fuzzyMatch_match_iff_positive_score "Submit" "sub").1 (by decide)⟩

/-- C2 (amended): for a nonempty query of at most 4 characters, an exact
(case-insensitive) match scores strictly above any text containing the
query only as a non-prefix substring, which scores strictly above any text
not containing the query contiguously at all (subsequence scan or
no-match).  The 4-character bound is necessary: see
`fuzzyMatch_ranking_cex`, where a 5-character query makes the subsequence
scan (61) beat the substring score (60). -/
theorem fuzzyMatch_ranking (q t1 t2 t3 : String)
    (hq : lowerList q ≠ [])
    (hlen : (lowerList q).length ≤ 4)
    (h1 : lowerList t1 = lowerList q)
    (h2i : jsIncludes (lowerList q) (lowerList t2) = true)
    (h2p : (lowerList q).isPrefixOf (lowerList t2) = false)
    (h3 : jsIncludes (lowerList q) (lowerList t3) = false) :
    (fuzzyMatch t2 q).score < (fuzzyMatch t1 q).score
  ∧ (fuzzyMatch t3 q).score < (fuzzyMatch t2 q).score := by
  rw [fuzzyMatch_exact t1 q hq h1, fuzzyMatch_substr t2 q h2i h2p]
  exact ⟨by norm_num, fuzzyMatch_no_substr_lt t3 q hlen h3⟩

/-- Witness for C2 (amended) at concrete inputs: query `sub` against the
exact text `SUB`, the substring text `xsub` and the subsequence text
`sxub`. -/
theorem fuzzyMatch_ranking_witness :
    (fuzzyMatch "xsub" "sub").score < (fuzzyMatch "SUB" "sub").score
  ∧ (fuzzyMatch "sxub" "sub").score < (fuzzyMatch "xsub" "sub").score :=
  fuzzyMatch_ranking "sub" "SUB" "xsub" "sxub" (by decide) (by decide)
    (by decide) (by decide) (by decide) (by decide)

/-- Counterexample to C2 as stated: for the 5-character query `abcde`, the
text `xabcde` contains the query only as a non-prefix substring and scores
60, while `abcdxe` contains it only as a scattered subsequence yet scores
61, so the claimed strict ordering substring > subsequence fails. -/
theorem fuzzyMatch_ranking_cex :
    jsIncludes (lowerList "abcde") (lowerList "xabcde") = true
  ∧ (lowerList "abcde").isPrefixOf (lowerList "xabcde") = false
  ∧ jsIncludes (lowerList "abcde") (lowerList "abcdxe") = false
  ∧ fuzzyMatch "xabcde" "abcde" = ⟨60, true⟩
  ∧ fuzzyMatch "abcdxe" "abcde" = ⟨61, true⟩
  ∧ ¬((fuzzyMatch "abcdxe" "abcde").score < (fuzzyMatch "xabcde" "abcde").score) := by
  decide

/-! ### Selector sanitization (src/content.js, `sanitizeSelector`, lines
130-188, and `queryElementSafe`, lines 191-195)

Selectors are JS strings, embedded as `String` / `List Char`.  The regex
replacements of `sanitizeSelector` are implemented character by character
with JS `replace(/../g)` semantics (leftmost match, resume after the
replacement).  The DOM is a host primitive: a document maps a selector
string to either a thrown error (invalid selector) or the list of matching
elements in document order. -/

/-- JS `\s` on the characters occurring in selectors. -/
def jsSpace (c : Char) : Bool :=
  c = ' ' || c = '\t' || c = '\n' || c = '\r'

/-- `replace(/PAT\([^)]*\)/g, '')` for a literal pattern ending in `(`:
on a match, everything through the first following `)` is removed;
without a closing `)` there is no match at this position.  The `fuel`
argument (always instantiated with the input length, which bounds the
number of scan steps) makes the recursion structural so that concrete
inputs evaluate inside the kernel. -/
def removeCallsAux (pat : List Char) : Nat → List Char → List Char
  | _, [] => []
  | 0, s => s
  | fuel + 1, c :: rest =>
    if pat.isPrefixOf (c :: rest) then
      match ((c :: rest).drop pat.length).findIdx? (fun ch => ch = ')') with
      | some idx => removeCallsAux pat fuel (((c :: rest).drop pat.length).drop (idx + 1))
      | none => c :: removeCallsAux pat fuel rest
    else c :: removeCallsAux pat fuel rest

/-- `replace(/PAT\([^)]*\)/g, '')`, scanning the whole string. -/
def removeCalls (pat s : List Char) : List Char :=
  removeCallsAux pat s.length s

/-- `replace(/PAT/g, '')` for a nonempty literal pattern. -/
def removeLiteralAux (pat : List Char) : Nat → List Char → List Char
  | _, [] => []
  | 0, s => s
  | fuel + 1, c :: rest =>
    if pat ≠ [] ∧ pat.isPrefixOf (c :: rest) then
      removeLiteralAux pat fuel ((c :: rest).drop pat.length)
    else c :: removeLiteralAux pat fuel rest

/-- `replace(/PAT/g, '')`, scanning the whole string. -/
def removeLiteral (pat s : List Char) : List Char :=
  removeLiteralAux pat s.length s

/-- `s.dropWhile(\s)`. -/
def dropWs (s : List Char) : List Char :=
  s.dropWhile jsSpace

/-- One attempt to match `\s*>\s*>\s*` at the start of `s`; on success
returns the remainder after the (greedy) match. -/
def tryGtGt (s : List Char) : Option (List Char) :=
  match dropWs s with
  | [] => none
  | c1 :: r1 =>
    if c1 = '>' then
      match dropWs r1 with
      | [] => none
      | c2 :: r2 => if c2 = '>' then some (dropWs r2) else none
    else none

/-- A successful `\s*>\s*>\s*` match consumes at least the two `>`. -/
theorem tryGtGt_length_lt (s r : List Char) (h : tryGtGt s = some r) :
    r.length < s.length := by
  unfold tryGtGt at h
  split at h
  next => cases h
  next c1 r1 heq =>
    split at h
    · split at h
      next => cases h
      next c2 r2 heq2 =>
        split at h
        · have h0 : (dropWs s).length ≤ s.length := (List.dropWhile_sublist _).length_le
          have h2 : (dropWs r1).length ≤ r1.length := (List.dropWhile_sublist _).length_le
          have h4 : (dropWs r2).length ≤ r2.length := (List.dropWhile_sublist _).length_le
          rw [heq] at h0
          rw [heq2] at h2
          simp only [Option.some.injEq] at h
          subst h
          simp only [List.length_cons] at h0 h2
          omega
        · cases h
    · cases h

/-- `replace(/\s*>\s*>\s*/g, ' > ')` (fuel-indexed scan as above). -/
def collapseGtGtAux : Nat → List Char → List Char
  | _, [] => []
  | 0, s => s
  | fuel + 1, c :: rest =>
    match tryGtGt (c :: rest) with
    | some rem => ' ' :: '>' :: ' ' :: collapseGtGtAux fuel rem
    | none => c :: collapseGtGtAux fuel rest

/-- `replace(/\s*>\s*>\s*/g, ' > ')`. -/
def collapseGtGt (s : List Char) : List Char :=
  collapseGtGtAux s.length s

/-- `replace(/\s+/g, ' ')` (fuel-indexed scan as above). -/
def collapseWsAux : Nat → List Char → List Char
  | _, [] => []
  | 0, s => s
  | fuel + 1, c :: rest =>
    if jsSpace c then ' ' :: collapseWsAux fuel (rest.dropWhile jsSpace)
    else c :: collapseWsAux fuel rest

/-- `replace(/\s+/g, ' ')`. -/
def collapseWs (s : List Char) : List Char :=
  collapseWsAux s.length s

/-- JS `trim()`. -/
def jsTrim (s : List Char) : List Char :=
  ((s.dropWhile jsSpace).reverse.dropWhile jsSpace).reverse

/-- The whole replacement pipeline of `sanitizeSelector` (lines 143-150),
in source order. -/
def jsStripSelector (sel : String) : String :=
  String.mk (jsTrim (collapseWs (collapseGtGt
    (removeLiteral ":last-child".data
      (removeLiteral ":first-child".data
        (removeCalls ":nth-of-type(".data
          (removeCalls ":nth-child(".data sel.data)))))))

/-- Outcome of `document.querySelectorAll` for one selector: a thrown
error (invalid selector) or the matches in document order. -/
inductive QueryResult where
  | invalid : QueryResult
  | results : List Nat → QueryResult
  deriving DecidableEq, Repr

/-- The host DOM, observed only through selector queries. -/
def Doc : Type := String → QueryResult

/-- `try { el = doc.querySelector(s); } catch {}` tested for truthiness. -/
def queryOk (doc : Doc) (s : String) : Bool :=
  match doc s with
  | .invalid => false
  | .results [] => false
  | .results (_ :: _) => true

/-- `document.querySelector(s)`: first match, `none` on error or miss. -/
def querySelectorFirst (doc : Doc) (s : String) : Option Nat :=
  match doc s with
  | .results (e :: _) => some e
  | _ => none

/-- `document.querySelectorAll(s).length` (0 on error). -/
def queryCount (doc : Doc) (s : String) : Nat :=
  match doc s with
  | .results l => l.length
  | .invalid => 0

/-- JS `string.split(sep)` for a nonempty literal separator (fuel-indexed
left-to-right scan; `cur` accumulates the current segment reversed). -/
def jsSplitAux (sep : List Char) : Nat → List Char → List Char → List String
  | _, [], cur => [String.mk cur.reverse]
  | 0, s, cur => [String.mk (cur.reverse ++ s)]
  | fuel + 1, c :: rest, cur =>
    if sep ≠ [] ∧ sep.isPrefixOf (c :: rest) then
      String.mk cur.reverse :: jsSplitAux sep fuel ((c :: rest).drop sep.length) []
    else
      jsSplitAux sep fuel rest (c :: cur)

/-- JS `string.split(sep)`. -/
def jsSplit (sep : List Char) (s : List Char) : List String :=
  jsSplitAux sep s.length s []

/-- The literal separator `' > '` used by the cascade. -/
def sepGt : List Char := " > ".data

/-- JS `array.join(sep)`. -/
def jsJoin (sep : String) : List String → String
  | [] => ""
  | [x] => x
  | x :: y :: rest => x ++ sep ++ jsJoin sep (y :: rest)

/-- `sanitizeSelector(selector)` from src/content.js lines 130-188. -/
def sanitizeSelector (doc : Doc) (sel : String) : Option String :=
  if sel = "" then none
  else if queryOk doc sel then some sel
  else
    let sanitized := jsStripSelector sel
    if sanitized ≠ sel then
      if queryOk doc sanitized then some sanitized
      else
        let parts := jsSplit sepGt sanitized.data
        if parts.length > 2 then
          let shortSelector := jsJoin " > " (parts.drop (parts.length - 2))
          if queryOk doc shortSelector then some shortSelector
          else
            let lastPart := parts.getLastD ""
            if queryOk doc lastPart then some lastPart else none
        else none
    else none

/-- `queryElementSafe(selector)` from src/content.js lines 191-195. -/
def queryElementSafe (doc : Doc) (sel : String) : Option Nat :=
  match sanitizeSelector doc sel with
  | none => none
  | some s' => querySelectorFirst doc s'

/-- The resolution cascade as the (amended) spec words it: the verbatim
selector; the stripped selector, tried only when stripping changed the
string; the trailing-two-segment and final-segment fallbacks, tried only
when stripping changed the string and it splits into more than two
segments; otherwise null. -/
def cascadeSpec (doc : Doc) (sel : String) : Option String :=
  if sel = "" then none
  else if queryOk doc sel then some sel
  else
    let stripped := jsStripSelector sel
    if stripped = sel then none
    else if queryOk doc stripped then some stripped
    else
      let parts := jsSplit sepGt stripped.data
      if parts.length ≤ 2 then none
      else
        let shortSelector := jsJoin " > " (parts.drop (parts.length - 2))
        let lastPart := parts.getLastD ""
        if queryOk doc shortSelector then some shortSelector
        else if queryOk doc lastPart then some lastPart
        else none

/-- A document with two `button` elements and nothing else. -/
def docTwoButtons : Doc := fun s =>
  if s = "button" then .results [1, 2] else .results []

/-- A document in which only the bare selector `p` matches. -/
def docOnlyP : Doc := fun s =>
  if s = "p" then .results [7] else .results []

/-- C4 (amended): the resolution cascade as implemented — the stripped
selector is tried only when stripping changed the string, and the
trailing-two-segment / final-segment fallbacks only when, in addition, the
stripped selector splits into more than two segments; `sanitizeSelector`
equals this cascade on every document and selector. -/
theorem sanitizeSelector_eq_cascadeSpec (doc : Doc) (sel : String) :
    sanitizeSelector doc sel = cascadeSpec doc sel := by
  unfold sanitizeSelector cascadeSpec
  dsimp only
  by_cases hA : sel = ""
  · rw [if_pos hA, if_pos hA]
  · rw [if_neg hA, if_neg hA]
    by_cases hB : queryOk doc sel = true
    · rw [if_pos hB, if_pos hB]
    · rw [if_neg hB, if_neg hB]
      by_cases hC : jsStripSelector sel = sel
      · rw [if_neg (not_not_intro hC), if_pos hC]
      · rw [if_pos hC, if_neg hC]
        by_cases hD : queryOk doc (jsStripSelector sel) = true
        · rw [if_pos hD, if_pos hD]
        · rw [if_neg hD, if_neg hD]
          by_cases hE : (jsSplit sepGt (jsStripSelector sel).data).length > 2
          · have hE' : ¬((jsSplit sepGt (jsStripSelector sel).data).length ≤ 2) := by
              omega
            rw [if_pos hE, if_neg hE']
          · have hE' : (jsSplit sepGt (jsStripSelector sel).data).length ≤ 2 := by
              omega
            rw [if_neg hE, if_pos hE']

/-- Counterexample to C4 as stated: for the selector `div > p` (no
pseudo-classes, so stripping changes nothing) in a document where only the
final segment `p` matches, the cascade returns null without ever attempting
steps (3) and (4), although step (4) would have succeeded. -/
theorem sanitizeSelector_cascade_cex :
    jsStripSelector "div > p" = "div > p"
  ∧ sanitizeSelector docOnlyP "div > p" = none
  ∧ (jsSplit sepGt "div > p".data).getLastD "" = "p"
  ∧ queryOk docOnlyP "p" = true := by
  decide

/-- Whenever `sanitizeSelector` returns a selector, that selector was the
one that just tested truthy, so it has at least one match. -/
theorem sanitizeSelector_queryOk (doc : Doc) (sel s' : String)
    (h : sanitizeSelector doc sel = some s') : queryOk doc s' = true := by
  unfold sanitizeSelector at h
  dsimp only at h
  split_ifs at h <;> simp_all

/-- C5 (amended): a non-null result of the sanitization cascade matches at
least one element — in particular `queryElementSafe` returns an element —
but not necessarily exactly one (see `sanitizeSelector_unique_cex`). -/
theorem sanitizeSelector_resolves (doc : Doc) (sel s' : String)
    (h : sanitizeSelector doc sel = some s') :
    0 < queryCount doc s' ∧ queryElementSafe doc sel ≠ none := by
  have hok := sanitizeSelector_queryOk doc sel s' h
  have hcount : 0 < queryCount doc s' := by
    unfold queryOk at hok
    unfold queryCount
    split at hok <;> simp_all
  refine ⟨hcount, ?_⟩
  unfold queryElementSafe
  rw [h]
  unfold querySelectorFirst
  unfold queryOk at hok
  split at hok <;> simp_all

/-- Witness for C5 (amended): in the two-button document the cascade
returns `button`, which has a (first) match. -/
theorem sanitizeSelector_resolves_witness :
    0 < queryCount docTwoButtons "button"
  ∧ queryElementSafe docTwoButtons "button" ≠ none :=
  sanitizeSelector_resolves docTwoButtons "button" "button" (by decide)

/-- Counterexample to C5 as stated: the cascade returns `button` for the
two-button document, yet that selector matches two elements, not exactly
one. -/
theorem sanitizeSelector_unique_cex :
    sanitizeSelector docTwoButtons "button" = some "button"
  ∧ queryCount docTwoButtons "button" ≠ 1 := by
  exact ⟨by decide, by decide⟩

/-! ### Hint rendering and the key→target map (src/content.js:
`renderContainers` lines 1098-1139, `renderFollowMode` lines 735-748,
`renderVimiumHintsUniversal` lines 1782-1898, `ALL_KEYS` lines 106-111)

Geometry is embedded over `Int` (the render pass only compares
coordinates, so the embedding of the float coordinates is exact on
integer-valued inputs).
`getBoundingClientRect` and `querySelectorAll('*').length` are host
primitives supplied as functions `rectOf : Nat → Rect` and
`childCount : Nat → Nat` over element ids. -/

/-- A bounding rectangle as used by the renderer. -/
structure Rect where
  left : Int
  top : Int
  width : Int
  height : Int
  deriving DecidableEq, Repr

/-- A survey item handed to a render pass: `{selector, label, ...}`. -/
structure PageItem where
  selector : String
  label : String
  deriving DecidableEq, Repr

/-- `const NUMBERS = '123456789'`. -/
def NUMBERS : List Char := "123456789".data

/-- `const LETTERS = 'abcdefghijklmnopqrstuvwxyz'`. -/
def LETTERS : List Char := "abcdefghijklmnopqrstuvwxyz".data

/-- `const EXTENDED_KEYS = 'ABCDEFGHIJKLMNOPQRSTUVWXYZ'`. -/
def EXTENDED_KEYS : List Char := "ABCDEFGHIJKLMNOPQRSTUVWXYZ".data

/-- `const ALL_KEYS = NUMBERS + LETTERS + EXTENDED_KEYS` (61 keys). -/
def ALL_KEYS : List Char := NUMBERS ++ LETTERS ++ EXTENDED_KEYS

/-- `ALL_KEYS[i]`. -/
def keyOfIndex (i : Nat) : Char := ALL_KEYS.getD i '?'

/-- `ALL_KEYS[i].toLowerCase()` — the key actually stored in the
`keyToElement` map (line 1836). -/
def foldedKey (i : Nat) : Char := (keyOfIndex i).toLower

/-- `document.querySelectorAll(sel)` as a list of element ids (the render
pass only calls it on the selectors it generated itself, so a thrown
error is modelled as no matches). -/
def domMatches (doc : Doc) (s : String) : List Nat :=
  match doc s with
  | .results l => l
  | .invalid => []

/-- One entry of `validElements` in `renderVimiumHintsUniversal`:
`{element, rect, key, index, domElement}`. -/
structure HintItem where
  element : PageItem
  rect : Rect
  key : Char
  index : Nat
  domElement : Nat
  deriving DecidableEq, Repr

/-- The `elements.forEach` collection loop of `renderVimiumHintsUniversal`
(lines 1795-1820): indices at or beyond `ALL_KEYS.length` are skipped (so
the scan may stop there), per-selector usage counts pick the n-th match of
a duplicated selector, selectors without matches and zero-sized rectangles
are dropped, and the hint key is `ALL_KEYS[i]` for the original index. -/
def collectValid (doc : Doc) (rectOf : Nat → Rect) :
    List PageItem → Nat → (String → Nat) → List HintItem
  | [], _, _ => []
  | e :: rest, i, usage =>
    if 61 ≤ i then []
    else
      let u := usage e.selector
      let usage' := fun s => if s = e.selector then u + 1 else usage s
      match domMatches doc e.selector with
      | [] => collectValid doc rectOf rest (i + 1) usage'
      | m :: ms =>
        let el := (m :: ms).getD (min u ((m :: ms).length - 1)) m
        let rect := rectOf el
        if rect.width = 0 ∨ rect.height = 0 then
          collectValid doc rectOf rest (i + 1) usage'
        else
          ⟨e, rect, keyOfIndex i, i, el⟩ :: collectValid doc rectOf rest (i + 1) usage'

/-- The `validElements.sort` comparator (lines 1823-1827): rows more than
10px apart order by top, otherwise by left, as the before-or-equal
relation of a stable sort.  (JS `Array#sort` is stable; the key→element
pairs are fixed before sorting, so no theorem below depends on the sort
order beyond it being a permutation.) -/
def hintLEb (a b : HintItem) : Bool :=
  if 10 < a.rect.top - b.rect.top ∨ 10 < b.rect.top - a.rect.top then
    decide (a.rect.top ≤ b.rect.top)
  else decide (a.rect.left ≤ b.rect.left)

/-- `hintLEb` as the ordering relation of the stable sort. -/
def hintLE (a b : HintItem) : Prop := hintLEb a b = true

instance : DecidableRel hintLE := fun a b => instDecidableEqBool _ _

/-- The sorted `validElements`. -/
def sortHints (l : List HintItem) : List HintItem :=
  List.insertionSort hintLE l

/-- The sequence of `state.keyToElement.set(key.toLowerCase(), element)`
insertions performed by the element-level render pass, in render order. -/
def elementBindings (doc : Doc) (rectOf : Nat → Rect) (elems : List PageItem) :
    List (Char × PageItem) :=
  (sortHints (collectValid doc rectOf elems 0 (fun _ => 0))).map
    (fun it => (it.key.toLower, it.element))

/-- The container filter of `renderContainers` (lines 1106-1125): the
selector must resolve via `queryElementSafe` and the resolved element must
contain at least 2 descendant nodes. -/
def validContainers (doc : Doc) (childCount : Nat → Nat) (containers : List PageItem) :
    List PageItem :=
  containers.filter fun c =>
    match queryElementSafe doc c.selector with
    | none => false
    | some el => 2 ≤ childCount el

/-- The key bindings of the container-level render pass (lines 1130-1135):
digits `1`-`9` paired with the first nine valid containers. -/
def containerBindings (doc : Doc) (childCount : Nat → Nat) (containers : List PageItem) :
    List (Char × PageItem) :=
  List.zip NUMBERS (validContainers doc childCount containers)

/-- The key bindings of `renderFollowMode` (lines 739-747): annotation `i`
gets digit `NUMBERS[i]` when its selector still resolves; unresolvable
annotations are skipped but still consume their digit. -/
def followBindingsAux (doc : Doc) : List PageItem → Nat → List (Char × PageItem)
  | [], _ => []
  | a :: rest, i =>
    if 9 ≤ i then []
    else if (queryElementSafe doc a.selector).isSome then
      (NUMBERS.getD i '?', a) :: followBindingsAux doc rest (i + 1)
    else followBindingsAux doc rest (i + 1)

/-- The follow-mode render pass bindings. -/
def followBindings (doc : Doc) (annotations : List PageItem) : List (Char × PageItem) :=
  followBindingsAux doc annotations 0

/-- Below index 35 (`1`-`9` then `a`-`z`) lowercasing the hint key is
injective; from index 35 on the uppercase keys fold onto `a`-`z`. -/
theorem foldedKey_inj : ∀ i < 35, ∀ j < 35, foldedKey i = foldedKey j → i = j := by
  decide

/-- Keys, index bounds and strict monotonicity of the collection loop:
every collected item carries `key = ALL_KEYS[index]` with its original
index, indices stay in `[i, min (i + #elems) 61)` and strictly increase. -/
theorem collectValid_key_index (doc : Doc) (rectOf : Nat → Rect) :
    ∀ (elems : List PageItem) (i : Nat) (usage : String → Nat),
      (∀ it ∈ collectValid doc rectOf elems i usage,
        it.key = keyOfIndex it.index ∧ i ≤ it.index ∧ it.index < 61 ∧
          it.index < i + elems.length)
      ∧ ((collectValid doc rectOf elems i usage).map (fun it => it.index)).Pairwise (· < ·) := by
  intro elems
  induction elems with
  | nil =>
    intro i usage
    exact ⟨fun it hit => absurd hit (by simp [collectValid]), by simp [collectValid]⟩
  | cons e rest ih =>
    intro i usage
    by_cases h61 : 61 ≤ i
    · constructor
      · intro it hit
        simp only [collectValid, if_pos h61] at hit
        cases hit
      · simp [collectValid, if_pos h61]
    · have hstep := fun u => ih (i + 1) u
      simp only [collectValid, if_neg h61]
      cases hm : domMatches doc e.selector with
      | nil =>
        refine ⟨fun it hit => ?_, (hstep _).2⟩
        have h := (hstep _).1 it hit
        exact ⟨h.1, by omega, h.2.2.1, by simp only [List.length_cons]; omega⟩
      | cons m ms =>
        by_cases hz : (rectOf ((m :: ms).getD
            (min (usage e.selector) ((m :: ms).length - 1)) m)).width = 0 ∨
            (rectOf ((m :: ms).getD
              (min (usage e.selector) ((m :: ms).length - 1)) m)).height = 0
        · simp only [if_pos hz]
          refine ⟨fun it hit => ?_, (hstep _).2⟩
          have h := (hstep _).1 it hit
          exact ⟨h.1, by omega, h.2.2.1, by simp only [List.length_cons]; omega⟩
        · simp only [if_neg hz]
          constructor
          · intro it hit
            rcases List.mem_cons.mp hit with hhd | htl
            · subst hhd
              exact ⟨rfl, Nat.le_refl i, (show i < 61 by omega),
                (show i < i + (e :: rest).length by simp only [List.length_cons]; omega)⟩
            · have h := (hstep _).1 it htl
              exact ⟨h.1, by omega, h.2.2.1, by simp only [List.length_cons]; omega⟩
          · rw [List.map_cons, List.pairwise_cons]
            refine ⟨?_, (hstep _).2⟩
            intro j hj
            rcases List.mem_map.mp hj with ⟨it, hit, rfl⟩
            have h := (hstep _).1 it hit
            dsimp only
            omega

/-- The first components of a zip form a sublist of the first list. -/
theorem map_fst_zip_sublist {α β : Type} :
    ∀ (l₁ : List α) (l₂ : List β), List.Sublist ((l₁.zip l₂).map Prod.fst) l₁
  | [], _ => by simp
  | _ :: _, [] => by simp
  | a :: l₁, b :: l₂ => by
    simpa using (map_fst_zip_sublist l₁ l₂).cons₂ a

/-- Keys handed out by the follow-mode pass starting at digit `i` form a
sublist of the remaining digits. -/
theorem followBindingsAux_fst_sublist (doc : Doc) :
    ∀ (anns : List PageItem) (i : Nat),
      List.Sublist ((followBindingsAux doc anns i).map Prod.fst) (NUMBERS.drop i) := by
  intro anns
  induction anns with
  | nil => intro i; simp [followBindingsAux]
  | cons a rest ih =>
    intro i
    by_cases h9 : 9 ≤ i
    · simp [followBindingsAux, if_pos h9]
    · have hi : i < NUMBERS.length := by
        have : NUMBERS.length = 9 := by decide
        omega
      have hdrop : NUMBERS.drop i = NUMBERS.getD i '?' :: NUMBERS.drop (i + 1) := by
        rw [List.getD_eq_getElem NUMBERS '?' hi]
        exact List.drop_eq_getElem_cons hi
      have hdrop2 : List.Sublist (NUMBERS.drop (i + 1)) (NUMBERS.drop i) := by
        have h1 : (NUMBERS.drop i).drop 1 = NUMBERS.drop (i + 1) := by
          rw [List.drop_drop]
        rw [← h1]
        exact List.drop_sublist 1 _
      simp only [followBindingsAux, if_neg h9]
      by_cases hres : (queryElementSafe doc a.selector).isSome
      · rw [if_pos hres, hdrop, List.map_cons]
        exact (ih (i + 1)).cons₂ _
      · rw [if_neg hres]
        exact (ih (i + 1)).trans hdrop2

/-- C1 (amended): the container-level and follow-mode render passes always
bind pairwise-distinct keys, and the element-level render pass binds
pairwise-distinct (case-folded) keys for up to 35 candidates — the keys
`1`-`9` and `a`-`z`.  Beyond 35 the uppercase hints case-fold onto already
used lowercase keys (see `elementBindings_dup_cex`), so the bound is
tight. -/
theorem renderPass_key_maps_nodup :
    (∀ doc childCount containers,
        ((containerBindings doc childCount containers).map Prod.fst).Nodup)
  ∧ (∀ doc annotations,
        ((followBindings doc annotations).map Prod.fst).Nodup)
  ∧ (∀ doc rectOf elems, elems.length ≤ 35 →
        ((elementBindings doc rectOf elems).map Prod.fst).Nodup) := by
  refine ⟨?_, ?_, ?_⟩
  · intro doc childCount containers
    exact (show NUMBERS.Nodup by decide).sublist
      (map_fst_zip_sublist NUMBERS (validContainers doc childCount containers))
  · intro doc annotations
    have h := followBindingsAux_fst_sublist doc annotations 0
    rw [List.drop_zero] at h
    exact (show NUMBERS.Nodup by decide).sublist h
  · intro doc rectOf elems hlen
    have hfacts := collectValid_key_index doc rectOf elems 0 (fun _ => 0)
    set l := collectValid doc rectOf elems 0 (fun _ => 0) with hl
    have hperm : List.Perm (sortHints l) l := List.perm_insertionSort _ l
    have hmapperm :
        List.Perm ((sortHints l).map (fun it => it.key.toLower))
          (l.map (fun it => it.key.toLower)) := hperm.map _
    have heq : (elementBindings doc rectOf elems).map Prod.fst
        = (sortHints l).map (fun it => it.key.toLower) := by
      simp [elementBindings, ← hl, List.map_map]
    rw [heq, hmapperm.nodup_iff]
    have hcong : l.map (fun it => it.key.toLower) = (l.map (fun it => it.index)).map foldedKey := by
      rw [List.map_map]
      refine List.map_congr_left ?_
      intro it hit
      have h := (hfacts.1 it hit).1
      simp only [Function.comp_apply, foldedKey]
      rw [h]
    rw [hcong]
    refine List.Nodup.map_on ?_ (hfacts.2.imp ne_of_lt)
    intro x hx y hy hxy
    rcases List.mem_map.mp hx with ⟨itx, hitx, rfl⟩
    rcases List.mem_map.mp hy with ⟨ity, hity, rfl⟩
    have hxb := (hfacts.1 itx hitx).2.2.2
    have hyb := (hfacts.1 ity hity).2.2.2
    exact foldedKey_inj _ (by omega) _ (by omega) hxy

/-- 36 survey items sharing the selector `x` (duplicate-selector handling
then picks the n-th match for the n-th item). -/
def cexElems : List PageItem := (List.range 36).map (fun i => ⟨"x", toString i⟩)

/-- A document with 36 elements matching `x`. -/
def cexDoc : Doc := fun s =>
  if s = "x" then .results (List.range 36) else .results []

/-- Well-separated nonzero rectangles, one row per element id. -/
def cexRect : Nat → Rect := fun i => ⟨0, 20 * (i : Int), 10, 10⟩

/-- Counterexample to C1 as stated: with 36 candidates (well within the
61-key alphabet) the element-level render pass stores keys lowercased, so
the 36th hint's key `A` folds onto the already-bound `a` and two distinct
rendered hints share a key. -/
theorem elementBindings_dup_cex :
    cexElems.length = 36
  ∧ ¬(((elementBindings cexDoc cexRect cexElems).map Prod.fst).Nodup) := by
  exact ⟨by decide, by decide⟩

/-- One valid container, one annotation, one element for the witness. -/
def witnessItem : PageItem := ⟨"button", "Buttons"⟩

/-- Witness for C1 (amended) at concrete inputs: each render pass binds
distinct keys. -/
theorem renderPass_key_maps_nodup_witness :
    ((containerBindings docTwoButtons (fun _ => 5) [witnessItem]).map Prod.fst).Nodup
  ∧ ((followBindings docTwoButtons [witnessItem]).map Prod.fst).Nodup
  ∧ ((elementBindings docTwoButtons cexRect [witnessItem]).map Prod.fst).Nodup :=
  ⟨renderPass_key_maps_nodup.1 docTwoButtons (fun _ => 5) [witnessItem],
   renderPass_key_maps_nodup.2.1 docTwoButtons [witnessItem],
   renderPass_key_maps_nodup.2.2 docTwoButtons cexRect [witnessItem] (by decide)⟩

/-- The key/element pairs the element-level pass produces when every item
renders: item `j` (0-based) is bound to the case-folded key
`ALL_KEYS[i + j]`. -/
def keyedFrom (i : Nat) : List PageItem → List (Char × PageItem)
  | [] => []
  | e :: rest => (foldedKey i, e) :: keyedFrom (i + 1) rest

/-- An item renders iff its selector has matches and every match has a
nonzero-sized rectangle. -/
def itemRenders (doc : Doc) (rectOf : Nat → Rect) (e : PageItem) : Prop :=
  domMatches doc e.selector ≠ [] ∧
    ∀ m ∈ domMatches doc e.selector, (rectOf m).width ≠ 0 ∧ (rectOf m).height ≠ 0

instance (doc : Doc) (rectOf : Nat → Rect) (e : PageItem) :
    Decidable (itemRenders doc rectOf e) := by
  unfold itemRenders
  infer_instance

/-- When every item renders and the key alphabet does not run out, the
collection loop keeps all items in order, binding item `j` to
`ALL_KEYS[i + j]` (case-folded). -/
theorem collectValid_all_valid (doc : Doc) (rectOf : Nat → Rect) :
    ∀ (elems : List PageItem) (i : Nat) (usage : String → Nat),
      i + elems.length ≤ 61 →
      (∀ e ∈ elems, itemRenders doc rectOf e) →
      (collectValid doc rectOf elems i usage).map (fun it => (it.key.toLower, it.element))
        = keyedFrom i elems := by
  intro elems
  induction elems with
  | nil => intro i usage _ _; rfl
  | cons e rest ih =>
    intro i usage hle hval
    have h61 : ¬61 ≤ i := by
      simp only [List.length_cons] at hle
      omega
    have hv := hval e (List.mem_cons_self e rest)
    simp only [collectValid, if_neg h61]
    cases hm : domMatches doc e.selector with
    | nil => exact absurd hm hv.1
    | cons m ms =>
      have hmem : (m :: ms).getD (min (usage e.selector) ((m :: ms).length - 1)) m ∈ m :: ms := by
        have hlt : min (usage e.selector) ((m :: ms).length - 1) < (m :: ms).length := by
          simp only [List.length_cons]
          omega
        rw [List.getD_eq_getElem _ _ hlt]
        exact List.getElem_mem hlt
      have hnz := hv.2 _ (show _ ∈ domMatches doc e.selector by rw [hm]; exact hmem)
      have hz : ¬((rectOf ((m :: ms).getD
          (min (usage e.selector) ((m :: ms).length - 1)) m)).width = 0 ∨
          (rectOf ((m :: ms).getD
            (min (usage e.selector) ((m :: ms).length - 1)) m)).height = 0) := by
        push_neg
        exact hnz
      simp only [if_neg hz, List.map_cons, keyedFrom]
      refine congrArg₂ _ rfl ?_
      refine ih (i + 1) _ ?_ ?_
      · simp only [List.length_cons] at hle
        omega
      · intro e' he'
        exact hval e' (List.mem_cons_of_mem e he')

/-- The keys of `keyedFrom i l` are the case-folded keys at indices
`i, i+1, ...`. -/
theorem keyedFrom_fst : ∀ (l : List PageItem) (i : Nat),
    (keyedFrom i l).map Prod.fst = (List.range' i l.length).map foldedKey := by
  intro l
  induction l with
  | nil => intro i; rfl
  | cons e rest ih =>
    intro i
    simp only [keyedFrom, List.map_cons, List.length_cons, List.range'_succ, ih]

/-- Membership in `keyedFrom`: position `j` carries key `foldedKey (i+j)`. -/
theorem keyedFrom_mem : ∀ (l : List PageItem) (i j : Nat) (d : PageItem),
    j < l.length → (foldedKey (i + j), l.getD j d) ∈ keyedFrom i l := by
  intro l
  induction l with
  | nil => intro i j d hj; cases hj
  | cons e rest ih =>
    intro i j d hj
    cases j with
    | zero => simp [keyedFrom]
    | succ j' =>
      have h := ih (i + 1) j' d (by simpa using hj)
      simp only [keyedFrom, List.getD_cons_succ]
      right
      have harith : i + 1 + j' = i + (j' + 1) := by omega
      rw [harith] at h
      exact h

/-- C3 (amended): a container-scoped render of 15 rendering children binds
the keys `1`-`9` then `a`-`f` (`ALL_KEYS[0..14]`, not `a`-`o`), and the
binding pairs item `j` of the survey list with key `ALL_KEYS[j]` — the key
assignment follows survey-list order, fixed before the visual sort, which
only permutes rendering order. -/
theorem elementRender_keys_assignment (doc : Doc) (rectOf : Nat → Rect)
    (elems : List PageItem)
    (hlen : elems.length = 15)
    (hval : ∀ e ∈ elems, itemRenders doc rectOf e) :
    ((elementBindings doc rectOf elems).map Prod.fst).Perm ("123456789abcdef".data)
  ∧ ∀ j, j < 15 → (foldedKey j, elems.getD j ⟨"", ""⟩) ∈ elementBindings doc rectOf elems := by
  have hcv := collectValid_all_valid doc rectOf elems 0 (fun _ => 0) (by omega) hval
  have hperm : List.Perm (sortHints (collectValid doc rectOf elems 0 (fun _ => 0)))
      (collectValid doc rectOf elems 0 (fun _ => 0)) :=
    List.perm_insertionSort _ _
  have hbind : List.Perm (elementBindings doc rectOf elems) (keyedFrom 0 elems) := by
    unfold elementBindings
    rw [← hcv]
    exact hperm.map _
  constructor
  · have h1 := hbind.map Prod.fst
    rw [keyedFrom_fst] at h1
    have h2 : (List.range' 0 elems.length).map foldedKey = "123456789abcdef".data := by
      rw [hlen]
      decide
    rw [h2] at h1
    exact h1
  · intro j hj
    have hm := keyedFrom_mem elems 0 j ⟨"", ""⟩ (by omega)
    rw [Nat.zero_add] at hm
    exact hbind.mem_iff.mpr hm

/-- 15 survey items with distinct selectors `s0`..`s14`. -/
def cex15Elems : List PageItem := (List.range 15).map (fun i => ⟨"s" ++ toString i, toString i⟩)

/-- A document resolving each `s<i>` to element `i`. -/
def cex15Doc : Doc := fun s =>
  match (List.range 15).find? (fun i => s = "s" ++ toString i) with
  | some i => .results [i]
  | none => .results []

/-- Witness for C3 (amended): the 15-element scenario with one element per
row in list order. -/
theorem elementRender_keys_assignment_witness :
    ((elementBindings cex15Doc cexRect cex15Elems).map Prod.fst).Perm ("123456789abcdef".data)
  ∧ ∀ j, j < 15 →
      (foldedKey j, cex15Elems.getD j ⟨"", ""⟩) ∈ elementBindings cex15Doc cexRect cex15Elems :=
  elementRender_keys_assignment cex15Doc cexRect cex15Elems (by decide) (by decide)

/-- Counterexample to C3 as stated: for 15 visible interactive children
laid out top-to-bottom in survey order, the element-level render assigns
`1`-`9` then `a`-`f`, not `a`-`o`. -/
theorem elementRender_keys_cex :
    ((elementBindings cex15Doc cexRect cex15Elems).map Prod.fst) = "123456789abcdef".data
  ∧ ((elementBindings cex15Doc cexRect cex15Elems).map Prod.fst) ≠ "abcdefghijklmno".data := by
  exact ⟨by decide, by decide⟩

/-! ### Overlap resolution (src/content.js: `boxesOverlap` lines
3390-3406, `applyPositionDelta` lines 3476-3501,
`resolveAnnotationOverlaps` lines 3416-3473)

Coordinates are embedded over `ℚ`; `Math.sqrt` — a float primitive of the
host — is an uninterpreted parameter `sq`, and the viewport dimensions are
the parameter `vp`.  Every theorem below holds for every `sq`, which in
particular covers the float behaviour up to the exactness of the other
arithmetic (only comparisons and linear arithmetic decide the claims). -/

/-- A placed annotation box; `right`, `bottom`, `centerX`, `centerY` are
derived exactly as `getAnnotationBoundingBox` computes them. -/
structure Box where
  left : ℚ
  top : ℚ
  width : ℚ
  height : ℚ
  deriving DecidableEq, Repr

instance : Inhabited Box := ⟨⟨0, 0, 0, 0⟩⟩

/-- `rect.right`. -/
def Box.right (b : Box) : ℚ := b.left + b.width

/-- `rect.bottom`. -/
def Box.bottom (b : Box) : ℚ := b.top + b.height

/-- `centerX`. -/
def Box.centerX (b : Box) : ℚ := b.left + b.width / 2

/-- `centerY`. -/
def Box.centerY (b : Box) : ℚ := b.top + b.height / 2

/-- `boxesOverlap(box1, box2, padding)`: padded rectangle intersection. -/
def boxesOverlap (box1 box2 : Box) (padding : ℚ) : Bool :=
  !(decide (box1.right + padding < box2.left - padding)
    || decide (box1.left - padding > box2.right + padding)
    || decide (box1.bottom + padding < box2.top - padding)
    || decide (box1.top - padding > box2.bottom + padding))

/-- `applyPositionDelta(element, dx, dy)`: move, then clamp into the
viewport with an 8px margin (the style position and the measured
bounding box coincide in this model). -/
def applyPositionDelta (vp : ℚ × ℚ) (b : Box) (dx dy : ℚ) : Box :=
  { b with
    left := max 8 (min (b.left + dx) (vp.1 - b.width - 8)),
    top := max 8 (min (b.top + dy) (vp.2 - b.height - 8)) }

/-- The per-pair repulsion step of `resolveAnnotationOverlaps` (lines
3439-3463): direction along the center line (normalised by `sq`, with the
`|| 1` guard against a zero distance), force proportional to the overlap
magnitude (`repulsionStrength = 15`, scaled by `0.1`), applied in opposite
directions to the two boxes. -/
def repulse (sq : ℚ → ℚ) (vp : ℚ × ℚ) (b1 b2 : Box) : Box × Box :=
  let dx := b1.centerX - b2.centerX
  let dy := b1.centerY - b2.centerY
  let d0 := sq (dx * dx + dy * dy)
  let distance := if d0 = 0 then 1 else d0
  let dirX := dx / distance
  let dirY := dy / distance
  let overlapX := (b1.width + b2.width) / 2 + 5 - |b1.centerX - b2.centerX|
  let overlapY := (b1.height + b2.height) / 2 + 5 - |b1.centerY - b2.centerY|
  let force := min overlapX overlapY * 15 * (1 / 10)
  (applyPositionDelta vp b1 (dirX * force) (dirY * force),
   applyPositionDelta vp b2 (-(dirX * force)) (-(dirY * force)))

/-- The inner `for (j = i+1; j < length; j++)` loop; `fuel` counts the
remaining values of `j` (the list length never changes, so `fuel = length
- j` throughout). -/
def innerLoop (sq : ℚ → ℚ) (vp : ℚ × ℚ) (i : Nat) :
    Nat → List Box → Nat → Bool → List Box × Bool
  | 0, bs, _, flag => (bs, flag)
  | fuel + 1, bs, j, flag =>
    let b1 := bs.getD i default
    let b2 := bs.getD j default
    if boxesOverlap b1 b2 5 then
      let p := repulse sq vp b1 b2
      innerLoop sq vp i fuel ((bs.set i p.1).set j p.2) (j + 1) true
    else innerLoop sq vp i fuel bs (j + 1) flag

/-- The outer `for (i = 0; i < length; i++)` loop. -/
def outerLoop (sq : ℚ → ℚ) (vp : ℚ × ℚ) :
    Nat → List Box → Nat → Bool → List Box × Bool
  | 0, bs, _, flag => (bs, flag)
  | fuel + 1, bs, i, flag =>
    let p := innerLoop sq vp i (bs.length - (i + 1)) bs (i + 1) flag
    outerLoop sq vp fuel p.1 (i + 1) p.2

/-- One pass over all pairs; the returned flag is `hasOverlap`. -/
def onePass (sq : ℚ → ℚ) (vp : ℚ × ℚ) (bs : List Box) : List Box × Bool :=
  outerLoop sq vp bs.length bs 0 false

/-- The `for (iteration = 0; iteration < maxIterations; iteration++)`
loop with its `if (!hasOverlap) break`; returns the boxes and the number
of passes executed. -/
def iterLoop (sq : ℚ → ℚ) (vp : ℚ × ℚ) : Nat → List Box → List Box × Nat
  | 0, bs => (bs, 0)
  | maxIter + 1, bs =>
    let p := onePass sq vp bs
    if p.2 then
      let q := iterLoop sq vp maxIter p.1
      (q.1, q.2 + 1)
    else (p.1, 1)

/-- `resolveAnnotationOverlaps(annotationBoxes, maxIterations)` (the
caller at line 3533 uses the default `maxIterations = 10`). -/
def resolveAnnotationOverlaps (sq : ℚ → ℚ) (vp : ℚ × ℚ)
    (maxIterations : Nat) (bs : List Box) : List Box × Nat :=
  if bs.length < 2 then (bs, 0)
  else iterLoop sq vp maxIterations bs

/-- No pair of boxes overlaps (with the pass's padding 5). -/
def PairwiseSeparated (bs : List Box) : Prop :=
  List.Pairwise (fun b1 b2 => boxesOverlap b1 b2 5 = false) bs

instance (bs : List Box) : Decidable (PairwiseSeparated bs) := by
  unfold PairwiseSeparated
  infer_instance

/-- If box `i` overlaps no box at index `j` or beyond, the inner loop is
the identity (the `fuel ≤ length - j` form also covers the empty range). -/
theorem innerLoop_separated (sq : ℚ → ℚ) (vp : ℚ × ℚ) (i : Nat) :
    ∀ (fuel : Nat) (bs : List Box) (j : Nat) (flag : Bool),
      fuel ≤ bs.length - j →
      (∀ j', j ≤ j' → j' < bs.length →
        boxesOverlap (bs.getD i default) (bs.getD j' default) 5 = false) →
      innerLoop sq vp i fuel bs j flag = (bs, flag) := by
  intro fuel
  induction fuel with
  | zero => intro bs j flag _ _; rfl
  | succ fuel ih =>
    intro bs j flag hle hsep
    have hj : j < bs.length := by omega
    have hov := hsep j (le_refl j) hj
    simp only [innerLoop, hov, Bool.false_eq_true, if_false]
    exact ih bs (j + 1) flag (by omega) (fun j' h1 h2 => hsep j' (by omega) h2)

/-- On pairwise separated boxes the whole pass is the identity and reports
no overlap. -/
theorem outerLoop_separated (sq : ℚ → ℚ) (vp : ℚ × ℚ) :
    ∀ (fuel : Nat) (bs : List Box) (i : Nat) (flag : Bool),
      (∀ a b, a < b → b < bs.length →
        boxesOverlap (bs.getD a default) (bs.getD b default) 5 = false) →
      outerLoop sq vp fuel bs i flag = (bs, flag) := by
  intro fuel
  induction fuel with
  | zero => intro bs i flag _; rfl
  | succ fuel ih =>
    intro bs i flag hsep
    have hinner : innerLoop sq vp i (bs.length - (i + 1)) bs (i + 1) flag = (bs, flag) :=
      innerLoop_separated sq vp i _ bs (i + 1) flag (le_refl _)
        (fun j' h1 h2 => hsep i j' (by omega) h2)
    simp only [outerLoop, hinner]
    exact ih bs (i + 1) flag hsep

/-- The iteration counter never exceeds the budget. -/
theorem iterLoop_count_le (sq : ℚ → ℚ) (vp : ℚ × ℚ) :
    ∀ (k : Nat) (bs : List Box), (iterLoop sq vp k bs).2 ≤ k := by
  intro k
  induction k with
  | zero => intro bs; exact le_refl _
  | succ k ih =>
    intro bs
    simp only [iterLoop]
    cases hp : (onePass sq vp bs).2
    · simp
    · simp only [if_pos rfl]
      exact Nat.succ_le_succ (ih _)

/-- `PairwiseSeparated` in the indexed form used by the loops. -/
theorem separated_getD (bs : List Box) (h : PairwiseSeparated bs) :
    ∀ a b, a < b → b < bs.length →
      boxesOverlap (bs.getD a default) (bs.getD b default) 5 = false := by
  intro a b hab hb
  have ha : a < bs.length := lt_trans hab hb
  rw [List.getD_eq_getElem _ _ ha, List.getD_eq_getElem _ _ hb]
  exact List.pairwise_iff_getElem.mp h a b ha hb hab

/-- C8: `resolveAnnotationOverlaps` always finishes within its budget of
10 repulsion passes, for every input, every viewport and every behaviour
of the host square root; and on pairwise well-separated input the first
pass finds no overlap, stops early, and returns the input placement
unchanged — in particular with zero pairwise overlaps. -/
theorem resolveOverlaps_budget_and_separated (sq : ℚ → ℚ) (vp : ℚ × ℚ) (bs : List Box) :
    (resolveAnnotationOverlaps sq vp 10 bs).2 ≤ 10
  ∧ (PairwiseSeparated bs →
      (resolveAnnotationOverlaps sq vp 10 bs).1 = bs
    ∧ (resolveAnnotationOverlaps sq vp 10 bs).2 ≤ 1
    ∧ PairwiseSeparated (resolveAnnotationOverlaps sq vp 10 bs).1) := by
  constructor
  · unfold resolveAnnotationOverlaps
    split
    · exact Nat.zero_le _
    · exact iterLoop_count_le sq vp 10 bs
  · intro hsep
    have hres : resolveAnnotationOverlaps sq vp 10 bs = (bs, if bs.length < 2 then 0 else 1) := by
      unfold resolveAnnotationOverlaps
      split
      · rfl
      · have hpass : onePass sq vp bs = (bs, false) :=
          outerLoop_separated sq vp bs.length bs 0 false (separated_getD bs hsep)
        simp only [iterLoop, hpass]
        rfl
    rw [hres]
    refine ⟨rfl, ?_, hsep⟩
    split <;> omega

/-- Five widely spaced 10×10 boxes. -/
def wBoxes : List Box :=
  [⟨0, 0, 10, 10⟩, ⟨100, 0, 10, 10⟩, ⟨200, 0, 10, 10⟩, ⟨300, 0, 10, 10⟩, ⟨400, 0, 10, 10⟩]

/-- Witness for C8 at a concrete input: five widely spaced boxes pass
through unchanged within one pass and remain overlap-free (with `sq`
instantiated by the identity). -/
theorem resolveOverlaps_budget_and_separated_witness :
    PairwiseSeparated wBoxes
  ∧ (resolveAnnotationOverlaps id (1280, 800) 10 wBoxes).1 = wBoxes
  ∧ (resolveAnnotationOverlaps id (1280, 800) 10 wBoxes).2 ≤ 1
  ∧ PairwiseSeparated (resolveAnnotationOverlaps id (1280, 800) 10 wBoxes).1 := by
  have hsep : PairwiseSeparated wBoxes := by
    unfold PairwiseSeparated wBoxes
    norm_num [List.pairwise_cons, boxesOverlap, Box.right, Box.bottom]
  have h := (resolveOverlaps_budget_and_separated id (1280, 800) wBoxes).2 hsep
  exact ⟨hsep, h.1, h.2.1, h.2.2⟩

/-! ### Navigation state machine (src/content.js: `state` lines 68-96,
`activate` lines 751-819, `deactivate` lines 1004-1028, `enterContainer`
lines 1531-1577, `exitToContainers` lines 1946-2040, `handleEscape` lines
391-414, `showError` lines 2997-3026)

The labeling collaborator is out of core: a response is a value of
`LabelResponse`.  The overlay DOM node is `present` while attached,
`fading` between `deactivate()` and its 250ms removal timer (the JS
reference is still truthy then), and `absent` once `state.overlay` is
null.  `findInteractiveElementsInContainer`'s DOM walk is a host
primitive `interactiveOf`, with the function's own early exit for an
unresolvable container selector embedded here. -/

/-- `state.mode`. -/
inductive Mode where
  | normal
  | follow
  | command
  deriving DecidableEq, Repr

/-- `state.navigationLevel`. -/
inductive Level where
  | containers
  | elements
  deriving DecidableEq, Repr

/-- The overlay DOM node's lifecycle. -/
inductive OverlayState where
  | absent
  | present
  | fading
  deriving DecidableEq, Repr

/-- A `keyToElement` value: `{type: 'container'|'element'|'standalone', data}`. -/
inductive Target where
  | container (item : PageItem)
  | element (item : PageItem)
  deriving DecidableEq, Repr

/-- The mutable session object `state` (the fields the navigation claims
touch). -/
structure NavState where
  active : Bool
  mode : Mode
  navigationLevel : Level
  containers : List PageItem
  standalone : List PageItem
  annotations : List PageItem
  currentContainer : Option PageItem
  currentElements : List PageItem
  keyToElement : List (Char × Target)
  breadcrumbTrail : List (String × String)
  macroRecording : Bool
  currentMacro : List String
  overlay : OverlayState
  deriving DecidableEq, Repr

/-- The initial (inactive) session state. -/
def initState : NavState :=
  { active := false, mode := .normal, navigationLevel := .containers,
    containers := [], standalone := [], annotations := [],
    currentContainer := none, currentElements := [], keyToElement := [],
    breadcrumbTrail := [], macroRecording := false, currentMacro := [],
    overlay := .absent }

/-- Observable UI effects of a transition. -/
inductive UIEvent where
  | errorShown (message : String) (dismissible : Bool)
  | containerHintsRendered (bindings : List (Char × PageItem))
  | elementHintsRendered (bindings : List (Char × PageItem))
  deriving DecidableEq, Repr

/-- The host DOM as seen by the state machine. -/
structure Host where
  doc : Doc
  childCount : Nat → Nat
  rectOf : Nat → Rect
  interactiveOf : PageItem → List PageItem

/-- The labeling collaborator's outcome: a result object, a response with
an `error` field, or a thrown error. -/
inductive LabelResponse where
  | ok (containers standalone : List PageItem)
  | err (message : String)
  | thrown (message : String)
  deriving DecidableEq, Repr

/-- `showError(message)` (lines 2997-3026): attached to the overlay (so
nothing is shown without one); the box carries a close button with an
`onclick` remove handler and `pointer-events: auto`, i.e. dismissible. -/
def showErrorEvents (s : NavState) (m : String) : List UIEvent :=
  if s.overlay = .absent then [] else [UIEvent.errorShown m true]

/-- `findInteractiveElementsInContainer(container)` (lines 1580-1678): the
early exit for an unresolvable selector, with the DOM walk itself a host
primitive. -/
def findInteractiveElementsInContainer (h : Host) (c : PageItem) : List PageItem :=
  match queryElementSafe h.doc c.selector with
  | none => []
  | some _ => h.interactiveOf c

/-- `renderContainers()` (lines 1098-1139): early return without an
overlay; otherwise rebuild `keyToElement` from the valid containers. -/
def renderContainers (h : Host) (s : NavState) : NavState × List UIEvent :=
  if s.overlay = .absent then (s, [])
  else
    let bs := containerBindings h.doc h.childCount s.containers
    ({ s with keyToElement := bs.map (fun p => (p.1, Target.container p.2)) },
     [UIEvent.containerHintsRendered bs])

/-- `renderContainerElements(container)` (lines 1742-1779): early return
without an overlay; otherwise rebuild `keyToElement` from
`state.currentElements` via the universal vimium render. -/
def renderContainerElements (h : Host) (s : NavState) : NavState × List UIEvent :=
  if s.overlay = .absent then (s, [])
  else
    let bs := elementBindings h.doc h.rectOf s.currentElements
    ({ s with keyToElement := bs.map (fun p => (p.1, Target.element p.2)) },
     [UIEvent.elementHintsRendered bs])

/-- The synchronous prefix of `activate()` before the labeling round trip
(lines 751-770): mark active, reset to the containers level, create the
overlay (a still-fading overlay node is reused as-is). -/
def requestState (s : NavState) : NavState :=
  { s with
    active := true
    navigationLevel := .containers
    currentContainer := none
    overlay := (if s.overlay = .absent then .present else s.overlay) }

/-- The continuation of `activate()` after `await sendMessage` (lines
784-818), applied to whatever state exists at resolution time — the code
performs no staleness check.  An error response or a thrown error shows a
dismissible error and returns; a result is written into the session and
container hints are rendered (unless both lists are empty, which reports
"No navigable elements found"). -/
def labelingComplete (h : Host) (s : NavState) (resp : LabelResponse) :
    NavState × List UIEvent :=
  match resp with
  | .err m => (s, showErrorEvents s m)
  | .thrown m => (s, showErrorEvents s m)
  | .ok cs ss =>
    let s1 := { s with
      containers := cs
      standalone := ss
      annotations := cs ++ ss }
    if cs.isEmpty ∧ ss.isEmpty then
      (s1, showErrorEvents s1 "No navigable elements found")
    else renderContainers h s1

/-- `activate()` with the labeling round trip resolving uninterrupted. -/
def activate (h : Host) (s : NavState) (resp : LabelResponse) : NavState × List UIEvent :=
  if s.active then (s, [])
  else labelingComplete h (requestState s) resp

/-- `deactivate()` (lines 1004-1028): the overlay node stays referenced
(fading) until its 250ms removal timer fires. -/
def deactivate (s : NavState) : NavState :=
  { s with
    active := false
    mode := .normal
    navigationLevel := .containers
    containers := []
    standalone := []
    annotations := []
    currentContainer := none
    currentElements := []
    keyToElement := []
    overlay := (if s.overlay = .absent then .absent else .fading) }

/-- The 250ms `setTimeout` body of `deactivate()`: remove the overlay. -/
def overlayTimerFires (s : NavState) : NavState :=
  if s.overlay = .fading then { s with overlay := .absent } else s

/-- `enterContainer(container)` (lines 1531-1577): push the breadcrumb,
enter the elements level, survey the container, render element hints. -/
def enterContainer (h : Host) (c : PageItem) (s : NavState) : NavState :=
  let elems := findInteractiveElementsInContainer h c
  let s1 := { s with
    breadcrumbTrail := s.breadcrumbTrail ++ [(c.label, c.selector)]
    currentContainer := some c
    navigationLevel := .elements
    currentElements := elems
    annotations := elems }
  (renderContainerElements h s1).1

/-- `exitToContainers()` (lines 1946-2040): pop the breadcrumb, clear the
container-scoped fields, restore the annotations and re-render the
container hints. -/
def exitToContainers (h : Host) (s : NavState) : NavState :=
  let s1 := { s with
    breadcrumbTrail := s.breadcrumbTrail.dropLast
    currentContainer := none
    currentElements := []
    navigationLevel := .containers
    annotations := s.containers ++ s.standalone }
  (renderContainers h s1).1

/-- `exitFollowMode()` (lines 445-461): back to normal mode, re-render the
current level (a missing `currentContainer` at the elements level cannot
be produced by the transitions modelled here). -/
def exitFollowModeState (h : Host) (s : NavState) : NavState :=
  let s1 := { s with mode := .normal }
  if s1.navigationLevel = .containers then (renderContainers h s1).1
  else (renderContainerElements h s1).1

/-- `handleEscape()` (lines 391-414), in source order: follow mode first,
then the command palette, then macro recording, then the navigation
levels. -/
def handleEscape (h : Host) (s : NavState) : NavState :=
  if s.mode = .follow then exitFollowModeState h s
  else if s.mode = .command then { s with mode := .normal }
  else if s.macroRecording then { s with macroRecording := false }
  else if s.navigationLevel = .elements then exitToContainers h s
  else deactivate s

/-- The keyboard-reachable operations at the elements level: activating a
bound element (`activateElement`, lines 2647-2719, which records to a
running macro but leaves the session fields alone), `Shift+R`
(`reloadContainer`, lines 1082-1095), entering/leaving follow mode,
opening/closing the command palette, toggling macro recording. -/
inductive InnerOp where
  | activateEl
  | reload
  | followEnter
  | followExit
  | paletteOpen
  | paletteClose
  | macroToggle
  deriving DecidableEq, Repr

/-- One inner operation. -/
def applyInner (h : Host) (op : InnerOp) (s : NavState) : NavState :=
  match op with
  | .activateEl =>
    if s.macroRecording then { s with currentMacro := s.currentMacro ++ ["click"] } else s
  | .reload =>
    match s.currentContainer with
    | none => s
    | some c =>
      let s1 := { s with currentElements := findInteractiveElementsInContainer h c }
      (renderContainerElements h s1).1
  | .followEnter => { s with mode := .follow }
  | .followExit => exitFollowModeState h s
  | .paletteOpen => { s with mode := .command }
  | .paletteClose => { s with mode := .normal }
  | .macroToggle =>
    if s.macroRecording then { s with macroRecording := false }
    else { s with macroRecording := true, currentMacro := ([] : List String) }

/-- A sequence of inner operations. -/
def applyInners (h : Host) (ops : List InnerOp) (s : NavState) : NavState :=
  ops.foldl (fun st op => applyInner h op st) s

/-- Shared concrete host: one container element matching `nav` with 5
descendants; every rectangle nonzero. -/
def cHost : Host :=
  ⟨(fun s => if s = "nav" then .results [1] else .results []),
   (fun _ => 5), (fun _ => ⟨0, 0, 10, 10⟩), (fun _ => [])⟩

/-- The container the labeling collaborator reports. -/
def navItem : PageItem := ⟨"nav", "Navigation"⟩

/-- C6 (amended): when the labeling call fails (error response or thrown
error), activation surfaces exactly one dismissible error, renders no
hints, and leaves containers/standalone/annotations and the key→target
map untouched with the navigation fields at their initial values — but
the engine stays `active` with the overlay up (effectively inert, armed
for retry) rather than returning to the inactive pre-activation state. -/
theorem activation_failure_inert (h : Host) (s : NavState) (m : String)
    (hact : s.active = false) (resp : LabelResponse)
    (hresp : resp = .err m ∨ resp = .thrown m) :
    (activate h s resp).2 = [UIEvent.errorShown m true]
  ∧ (activate h s resp).1.containers = s.containers
  ∧ (activate h s resp).1.standalone = s.standalone
  ∧ (activate h s resp).1.annotations = s.annotations
  ∧ (activate h s resp).1.keyToElement = s.keyToElement
  ∧ (activate h s resp).1.navigationLevel = .containers
  ∧ (activate h s resp).1.currentContainer = none
  ∧ (activate h s resp).1.active = true := by
  have hov : ¬((if s.overlay = OverlayState.absent then OverlayState.present
      else s.overlay) = OverlayState.absent) := by
    cases hso : s.overlay <;> simp
  have hna : ¬(s.active = true) := by rw [hact]; exact Bool.false_ne_true
  rcases hresp with hr | hr <;>
    (subst hr
     unfold activate labelingComplete showErrorEvents requestState
     rw [if_neg hna]
     simp [hov])

/-- Witness for C6 (amended) at a concrete input. -/
theorem activation_failure_inert_witness :
    (activate cHost initState (.err "API error")).2 = [UIEvent.errorShown "API error" true]
  ∧ (activate cHost initState (.err "API error")).1.keyToElement = initState.keyToElement
  ∧ (activate cHost initState (.err "API error")).1.active = true := by
  have h := activation_failure_inert cHost initState "API error" rfl
    (.err "API error") (Or.inl rfl)
  exact ⟨h.1, h.2.2.2.2.1, h.2.2.2.2.2.2.2⟩

/-- Counterexample to C6 as stated: after a failed activation the engine
does not return to its pre-activation state — it is still `active`. -/
theorem activation_failure_not_preactivation_cex :
    initState.active = false
  ∧ (activate cHost initState (.err "API error")).1.active = true
  ∧ (activate cHost initState (.err "API error")).1 ≠ initState := by
  decide

/-- C7 (amended): the resolved labeling result is applied to whatever
session state exists at resolution time — the code has no staleness
check.  The response's containers/standalone/annotations overwrite the
session fields unconditionally (in particular after a deactivation that
cleared them), and container hints are rendered whenever the overlay node
has not yet been removed (it survives deactivation for 250ms); only once
the removal timer has fired is nothing rendered — the fields are
overwritten regardless. -/
theorem labeling_result_applied_unconditionally (h : Host) (s : NavState)
    (cs ss : List PageItem) (hne : ¬(cs.isEmpty ∧ ss.isEmpty)) :
    (labelingComplete h s (.ok cs ss)).1.containers = cs
  ∧ (labelingComplete h s (.ok cs ss)).1.standalone = ss
  ∧ (labelingComplete h s (.ok cs ss)).1.annotations = cs ++ ss
  ∧ (s.overlay = .absent → (labelingComplete h s (.ok cs ss)).2 = [])
  ∧ (s.overlay ≠ .absent → (labelingComplete h s (.ok cs ss)).2 =
      [UIEvent.containerHintsRendered (containerBindings h.doc h.childCount cs)]) := by
  unfold labelingComplete renderContainers
  dsimp only
  rw [if_neg hne]
  by_cases hov : s.overlay = .absent <;> simp [hov]

/-- Counterexample to C7 as stated: deactivate while the labeling call is
outstanding, then let it resolve — the cleared session fields are
overwritten with the stale result and (the overlay still being in its
250ms fade-out) container hints are rendered. -/
theorem labeling_stale_applied_cex :
    (deactivate (requestState initState)).containers = []
  ∧ (deactivate (requestState initState)).active = false
  ∧ (labelingComplete cHost (deactivate (requestState initState))
      (.ok [navItem] [])).1.containers = [navItem]
  ∧ (labelingComplete cHost (deactivate (requestState initState))
      (.ok [navItem] [])).2 = [UIEvent.containerHintsRendered [('1', navItem)]] := by
  decide

/-- Witness for C7 (amended): with the overlay already removed the stale
result still overwrites the fields but renders nothing; while the overlay
is fading it also renders. -/
theorem labeling_result_applied_unconditionally_witness :
    (labelingComplete cHost (overlayTimerFires (deactivate (requestState initState)))
      (.ok [navItem] [])).1.containers = [navItem]
  ∧ (labelingComplete cHost (overlayTimerFires (deactivate (requestState initState)))
      (.ok [navItem] [])).2 = []
  ∧ (labelingComplete cHost (deactivate (requestState initState))
      (.ok [navItem] [])).2 =
        [UIEvent.containerHintsRendered (containerBindings cHost.doc cHost.childCount [navItem])] := by
  have h1 := labeling_result_applied_unconditionally cHost
    (overlayTimerFires (deactivate (requestState initState))) [navItem] [] (by decide)
  have h2 := labeling_result_applied_unconditionally cHost
    (deactivate (requestState initState)) [navItem] [] (by decide)
  exact ⟨h1.1, h1.2.2.2.1 (by decide), h2.2.2.2.2 (by decide)⟩

/-- Every elements-level operation leaves the container set, the
breadcrumb trail, the navigation level and the overlay untouched. -/
theorem applyInner_preserves (h : Host) (op : InnerOp) (s : NavState) :
    (applyInner h op s).containers = s.containers
  ∧ (applyInner h op s).standalone = s.standalone
  ∧ (applyInner h op s).breadcrumbTrail = s.breadcrumbTrail
  ∧ (applyInner h op s).navigationLevel = s.navigationLevel
  ∧ (applyInner h op s).overlay = s.overlay := by
  cases op <;>
    unfold applyInner exitFollowModeState renderContainers renderContainerElements <;>
    (repeat' split) <;>
    (by_cases hov : s.overlay = OverlayState.absent <;>
      by_cases hlv : s.navigationLevel = Level.containers <;>
      simp_all)

/-- `applyInner_preserves`, extended to sequences. -/
theorem applyInners_preserves (h : Host) :
    ∀ (ops : List InnerOp) (s : NavState),
      (applyInners h ops s).containers = s.containers
    ∧ (applyInners h ops s).standalone = s.standalone
    ∧ (applyInners h ops s).breadcrumbTrail = s.breadcrumbTrail
    ∧ (applyInners h ops s).navigationLevel = s.navigationLevel
    ∧ (applyInners h ops s).overlay = s.overlay := by
  intro ops
  induction ops with
  | nil => intro s; exact ⟨rfl, rfl, rfl, rfl, rfl⟩
  | cons op rest ih =>
    intro s
    have h1 := applyInner_preserves h op s
    have h2 := ih (applyInner h op s)
    unfold applyInners at h2 ⊢
    simp only [List.foldl_cons]
    exact ⟨h2.1.trans h1.1, h2.2.1.trans h1.2.1, h2.2.2.1.trans h1.2.2.1,
      h2.2.2.2.1.trans h1.2.2.2.1, h2.2.2.2.2.trans h1.2.2.2.2⟩

/-- `enterContainer` leaves the container set, the standalone set and the
overlay alone, pushes exactly one breadcrumb and moves to the elements
level. -/
theorem enterContainer_fields (h : Host) (c : PageItem) (s : NavState) :
    (enterContainer h c s).containers = s.containers
  ∧ (enterContainer h c s).standalone = s.standalone
  ∧ (enterContainer h c s).overlay = s.overlay
  ∧ (enterContainer h c s).breadcrumbTrail = s.breadcrumbTrail ++ [(c.label, c.selector)]
  ∧ (enterContainer h c s).navigationLevel = .elements := by
  unfold enterContainer renderContainerElements
  by_cases hov : s.overlay = OverlayState.absent <;> simp_all

/-- C9: entering a container from the containers level and later pressing
`Escape` (with follow mode, the palette and macro recording wound down)
lands back on the containers level with the untouched container set
re-rendered: the same containers, selectors and labels as before entry,
the breadcrumb popped back, whatever happened inside. -/
theorem container_roundtrip (h : Host) (s : NavState) (c : PageItem) (ops : List InnerOp)
    (hov : s.overlay = .present)
    (hmode : (applyInners h ops (enterContainer h c s)).mode = .normal)
    (hrecOff : (applyInners h ops (enterContainer h c s)).macroRecording = false) :
    handleEscape h (applyInners h ops (enterContainer h c s))
      = exitToContainers h (applyInners h ops (enterContainer h c s))
  ∧ (handleEscape h (applyInners h ops (enterContainer h c s))).navigationLevel = .containers
  ∧ (handleEscape h (applyInners h ops (enterContainer h c s))).containers = s.containers
  ∧ (handleEscape h (applyInners h ops (enterContainer h c s))).standalone = s.standalone
  ∧ (handleEscape h (applyInners h ops (enterContainer h c s))).breadcrumbTrail
      = s.breadcrumbTrail
  ∧ (handleEscape h (applyInners h ops (enterContainer h c s))).currentContainer = none
  ∧ (handleEscape h (applyInners h ops (enterContainer h c s))).keyToElement
      = (containerBindings h.doc h.childCount s.containers).map
          (fun p => (p.1, Target.container p.2)) := by
  have hen := enterContainer_fields h c s
  have hpre := applyInners_preserves h ops (enterContainer h c s)
  set t := applyInners h ops (enterContainer h c s) with ht
  have htc : t.containers = s.containers := hpre.1.trans hen.1
  have hts : t.standalone = s.standalone := hpre.2.1.trans hen.2.1
  have htb : t.breadcrumbTrail = s.breadcrumbTrail ++ [(c.label, c.selector)] :=
    hpre.2.2.1.trans hen.2.2.2.1
  have htl : t.navigationLevel = .elements := hpre.2.2.2.1.trans hen.2.2.2.2
  have hto : t.overlay = .present := hpre.2.2.2.2.trans (hen.2.2.1.trans hov)
  have hesc : handleEscape h t = exitToContainers h t := by
    unfold handleEscape
    rw [hmode, hrecOff, htl]
    simp
  refine ⟨hesc, ?_⟩
  rw [hesc]
  unfold exitToContainers renderContainers
  have hov' : ¬(OverlayState.present = OverlayState.absent) := by simp
  simp only [htc, hts, htb, hto, List.dropLast_concat, if_neg hov']
  simp

/-- A live session sitting at the containers level. -/
def liveState : NavState :=
  { initState with active := true, overlay := .present, containers := [navItem], annotations := [navItem] }

/-- A sample of things done inside the container: searching in follow
mode, recording a macro around an element activation, opening the command
palette, reloading the container survey. -/
def wOps : List InnerOp :=
  [.followEnter, .followExit, .macroToggle, .activateEl, .macroToggle,
   .paletteOpen, .paletteClose, .reload]

/-- Witness for C9 at a concrete input: after entering the container and
doing `wOps`, `Escape` restores the containers level with the original
container set and breadcrumb trail. -/
theorem container_roundtrip_witness :
    (handleEscape cHost (applyInners cHost wOps (enterContainer cHost navItem liveState))).navigationLevel
      = .containers
  ∧ (handleEscape cHost (applyInners cHost wOps (enterContainer cHost navItem liveState))).containers
      = liveState.containers
  ∧ (handleEscape cHost (applyInners cHost wOps (enterContainer cHost navItem liveState))).breadcrumbTrail
      = liveState.breadcrumbTrail := by
  have h := container_roundtrip cHost liveState navItem wOps rfl (by decide) (by decide)
  exact ⟨h.2.1, h.2.2.1, h.2.2.2.2.1⟩

end SurfMate
